import Mathlib

/-!
Shallow embedding of the octree point-cloud index (src/octree: octree.h /
octree.cpp) and verification of its specification claims.

Modelling conventions:
* The C++ code computes with `float`/`double`.  Every arithmetic operation it
  performs (halving a size, adding an offset, averaging two bounds, comparing
  coordinates) is exact on the dyadic inputs used throughout, so we model the
  numbers as exact rationals represented by unnormalized numerator/denominator
  pairs (`Frac`).  All denominators produced by the embedded program are
  positive, so the cross-multiplication order and equality used below are the
  rational ones.  This representation is chosen over `Rat` so that every
  definition evaluates inside the kernel.
* Heap nodes with parent pointers become a functional tree (`OctreeNode`)
  plus explicit paths (lists of child indices) from the root; the upward
  walk of `deletePointRecurse` over `parent` pointers becomes recursion on
  the path.  A null parent pointer is the empty path's parent.
* C++ exceptions (`CV_Error`) and undefined behaviour (out-of-bounds vector
  access, null-pointer dereference) become `Except` errors with a dedicated
  constructor for each, so that normal results, raised errors and UB are
  distinguished.
* Unbounded recursion is driven by explicit fuel; every theorem either
  supplies ample fuel for its concrete input or takes successful termination
  as a hypothesis.
-/

/-- Exact rational arithmetic on unnormalized numerator/denominator pairs.
All fractions built by the embedded program keep positive denominators. -/
structure Frac where
  num : Int
  den : Int
deriving DecidableEq, Repr

def Frac.ofInt (n : Int) : Frac := ⟨n, 1⟩

def Frac.add (a b : Frac) : Frac := ⟨a.num * b.den + b.num * a.den, a.den * b.den⟩

def Frac.sub (a b : Frac) : Frac := ⟨a.num * b.den - b.num * a.den, a.den * b.den⟩

def Frac.mul (a b : Frac) : Frac := ⟨a.num * b.num, a.den * b.den⟩

/-- Division by two (`x / 2.0` in the source). -/
def Frac.half (a : Frac) : Frac := ⟨a.num, 2 * a.den⟩

/-- Doubling (`2 * x` in the source). -/
def Frac.double (a : Frac) : Frac := ⟨2 * a.num, a.den⟩

/-- The strict order `a < b`, by cross multiplication (valid because all
denominators the program builds are positive). -/
def Frac.lt (a b : Frac) : Bool := a.num * b.den < b.num * a.den

/-- Value equality `a == b` (the `float` equality test of the source). -/
def Frac.beq (a b : Frac) : Bool := a.num * b.den = b.num * a.den

/-- `std::max(a, b)`: returns `b` when `a < b`, else `a`. -/
def Frac.maxF (a b : Frac) : Frac := if Frac.lt a b then b else a

/-- `std::min(a, b)`: returns `b` when `b < a`, else `a`. -/
def Frac.minF (a b : Frac) : Frac := if Frac.lt b a then b else a

/-- `cv::Point3f`: a 3-component coordinate. -/
structure Point3f where
  x : Frac
  y : Frac
  z : Frac
deriving DecidableEq, Repr

def Point3f.add (p q : Point3f) : Point3f :=
  ⟨Frac.add p.x q.x, Frac.add p.y q.y, Frac.add p.z q.z⟩

def Point3f.sub (p q : Point3f) : Point3f :=
  ⟨Frac.sub p.x q.x, Frac.sub p.y q.y, Frac.sub p.z q.z⟩

/-- Componentwise halving (`(maxBound + minBound) / 2.0`). -/
def Point3f.half (p : Point3f) : Point3f :=
  ⟨Frac.half p.x, Frac.half p.y, Frac.half p.z⟩

/-- The componentwise `float` equality the source uses to compare a query
point against a stored point (`point.x == pointList[i]->x && ...`). -/
def Point3f.beq (p q : Point3f) : Bool :=
  Frac.beq p.x q.x && Frac.beq p.y q.y && Frac.beq p.z q.z

/-- `OctreeNode` (octree.h): depth, cube edge length, minimum corner, the
slot this node occupies in its parent (−1 for the root), the leaf flag,
the stored points of a leaf, and the 8 child slots.  The C++ `parent`
back-pointer is represented by paths from the root (see module comment). -/
inductive OctreeNode where
  | mk (depth : Nat) (size : Frac) (origin : Point3f) (parentIndex : Int)
       (isLeaf : Bool) (pointList : List Point3f)
       (children : List (Option OctreeNode))

def OctreeNode.depth : OctreeNode → Nat
  | .mk d _ _ _ _ _ _ => d

def OctreeNode.size : OctreeNode → Frac
  | .mk _ s _ _ _ _ _ => s

def OctreeNode.origin : OctreeNode → Point3f
  | .mk _ _ o _ _ _ _ => o

def OctreeNode.parentIndex : OctreeNode → Int
  | .mk _ _ _ pi _ _ _ => pi

def OctreeNode.isLeaf : OctreeNode → Bool
  | .mk _ _ _ _ l _ _ => l

def OctreeNode.pointList : OctreeNode → List Point3f
  | .mk _ _ _ _ _ pl _ => pl

def OctreeNode.children : OctreeNode → List (Option OctreeNode)
  | .mk _ _ _ _ _ _ cs => cs

/-- `node->children[i]` (the vector always has 8 entries). -/
def OctreeNode.getChild (n : OctreeNode) (i : Nat) : Option OctreeNode :=
  (n.children.getD i none)

/-- `node->children[i] = c`. -/
def OctreeNode.setChild (i : Nat) (c : Option OctreeNode) : OctreeNode → OctreeNode
  | .mk d s o pi l pl cs => .mk d s o pi l pl (cs.set i c)

/-- The leaf case of `insertPointRecurse`: `node->isLeaf = true;
node->pointList.push_back(&point)`. -/
def OctreeNode.markLeafAdd (p : Point3f) : OctreeNode → OctreeNode
  | .mk d s o pi _ pl cs => .mk d s o pi true (pl ++ [p]) cs

def OctreeNode.setPointList (pl : List Point3f) : OctreeNode → OctreeNode
  | .mk d s o pi l _ cs => .mk d s o pi l pl cs

/-- `OctreeNode(_depth, _size, _origin, _parentIndex)`: fresh node,
`children(8)` null, not a leaf, empty point list. -/
def OctreeNode.create (d : Nat) (s : Frac) (o : Point3f) (pi : Int) : OctreeNode :=
  .mk d s o pi false [] (List.replicate 8 none)

/-- `Octree` (octree.h): root pointer, cube size, maximum depth, origin. -/
structure Octree where
  rootNode : Option OctreeNode
  size : Frac
  maxDepth : Nat
  origin : Point3f

/-- `Octree::isPointInBound(point, origin, size)`: strict open-interval
test on every axis. -/
def isPointInBound (p : Point3f) (o : Point3f) (size : Frac) : Bool :=
  (Frac.lt o.x p.x && Frac.lt o.y p.y && Frac.lt o.z p.z)
    && (Frac.lt p.x (Frac.add o.x size) && Frac.lt p.y (Frac.add o.y size)
        && Frac.lt p.z (Frac.add o.z size))

/-- `xIndex = point.x < node->origin.x + childSize ? 0 : 1` where
`childSize = node->size / 2.0` (shared verbatim by `insertPointRecurse`
and `index`). -/
def xIndexCalc (o : Point3f) (size : Frac) (p : Point3f) : Nat :=
  if Frac.lt p.x (Frac.add o.x (Frac.half size)) then 0 else 1

def yIndexCalc (o : Point3f) (size : Frac) (p : Point3f) : Nat :=
  if Frac.lt p.y (Frac.add o.y (Frac.half size)) then 0 else 1

def zIndexCalc (o : Point3f) (size : Frac) (p : Point3f) : Nat :=
  if Frac.lt p.z (Frac.add o.z (Frac.half size)) then 0 else 1

/-- `childIndex = xIndex + yIndex * 2 + zIndex * 4`, the octant code used
identically by `insertPointRecurse` and `index`. -/
def childIndexCalc (o : Point3f) (size : Frac) (p : Point3f) : Nat :=
  xIndexCalc o size p + yIndexCalc o size p * 2 + zIndexCalc o size p * 4

/-- `childOrigin = node->origin + Point3f(xIndex*childSize, yIndex*childSize,
zIndex*childSize)`. -/
def childOriginCalc (o : Point3f) (size : Frac) (p : Point3f) : Point3f :=
  Point3f.add o
    ⟨Frac.mul (Frac.ofInt (xIndexCalc o size p)) (Frac.half size),
     Frac.mul (Frac.ofInt (yIndexCalc o size p)) (Frac.half size),
     Frac.mul (Frac.ofInt (zIndexCalc o size p)) (Frac.half size)⟩

/-- Errors raised (or undefined behaviour performed) by insertion.
`outOfBounds` is `CV_Error(Error::StsBadArg, "The point is out of boundary!")`;
`outOfFuel` marks exhaustion of the explicit recursion fuel (never reached
with ample fuel on well-formed trees). -/
inductive OctErr where
  | outOfBounds
  | outOfFuel
deriving DecidableEq, Repr

/-- `Octree::insertPointRecurse(node, point)`.  On `CV_Error` the model
returns the error and drops the partially extended tree (no claim observes
the post-exception heap). -/
def insertPointRecurse (maxDepth : Nat) (p : Point3f) :
    Nat → OctreeNode → Except OctErr OctreeNode
  | fuel, node =>
    if !isPointInBound p node.origin node.size then .error .outOfBounds
    else if node.depth = maxDepth then .ok (node.markLeafAdd p)
    else
      match fuel with
      | 0 => .error .outOfFuel
      | fuel' + 1 =>
        let childSize := Frac.half node.size
        let childIndex := childIndexCalc node.origin node.size p
        let child :=
          match node.getChild childIndex with
          | some c => c
          | none =>
            OctreeNode.create (node.depth + 1) childSize
              (childOriginCalc node.origin node.size p) childIndex
        match insertPointRecurse maxDepth p fuel' child with
        | .error e => .error e
        | .ok child' => .ok (node.setChild childIndex (some child'))

/-- `Octree::insertPoint(node, point)` applied to the tree's root slot:
creates the root (`new OctreeNode(0, size, origin, -1)`) when null, then
recurses.  Fuel `maxDepth + 1` is ample for every well-formed tree. -/
def Octree.insertPoint (t : Octree) (p : Point3f) : Except OctErr Octree :=
  let root :=
    match t.rootNode with
    | none => OctreeNode.create 0 t.size t.origin (-1)
    | some r => r
  match insertPointRecurse t.maxDepth p (t.maxDepth + 1) root with
  | .error e => .error e
  | .ok r' => .ok { t with rootNode := some r' }

/-- The insertion loop of `convertFromPointCloud` (and a helper for building
test trees): inserts the points one at a time, aborting on the first error. -/
def insertList (t : Octree) (pc : List Point3f) : Except OctErr Octree :=
  match pc with
  | [] => .ok t
  | p :: rest =>
    match t.insertPoint p with
    | .error e => .error e
    | .ok t' => insertList t' rest

/-- `Octree::findCenterInPointCloud(pointCloud)`: running max/min bound fold
started from `pointCloud[0]`, returning `(maxBound + minBound) / 2.0`.
`none` models the out-of-bounds `pointCloud[0]` access on an empty input
(undefined behaviour; the source performs no emptiness check). -/
def findCenterInPointCloud (pc : List Point3f) : Option Point3f :=
  match pc with
  | [] => none
  | p0 :: _ =>
    let maxBound := pc.foldl
      (fun acc q => ⟨Frac.maxF q.x acc.x, Frac.maxF q.y acc.y, Frac.maxF q.z acc.z⟩)
      (⟨p0.x, p0.y, p0.z⟩ : Point3f)
    let minBound := pc.foldl
      (fun acc q => ⟨Frac.minF q.x acc.x, Frac.minF q.y acc.y, Frac.minF q.z acc.z⟩)
      (⟨p0.x, p0.y, p0.z⟩ : Point3f)
    some (Point3f.half (Point3f.add maxBound minBound))

/-- Failure modes of `convertFromPointCloud`: the undefined out-of-bounds
read `pointCloud[0]` on an empty cloud, or an error escaping `insertPoint`.
The source contains no `InvalidArgument` check, so no such constructor
exists. -/
inductive CvtErr where
  | emptyCloudUB
  | insertErr (e : OctErr)
deriving DecidableEq, Repr

/-- `Octree::convertFromPointCloud(pointCloud)`: derives the cube from the
cloud's center — `halfSize = max(center.x, max(center.y, center.z))`,
`origin = center - (halfSize, halfSize, halfSize)`, `size = 2 * halfSize` —
then inserts every point; returns `true`. -/
def convertFromPointCloud (maxDepth : Nat) (pc : List Point3f) :
    Except CvtErr (Octree × Bool) :=
  match findCenterInPointCloud pc with
  | none => .error .emptyCloudUB
  | some center =>
    let halfSize := Frac.maxF center.x (Frac.maxF center.y center.z)
    let origin := Point3f.sub center ⟨halfSize, halfSize, halfSize⟩
    let size := Frac.double halfSize
    match insertList ⟨none, size, maxDepth, origin⟩ pc with
    | .error e => .error (.insertErr e)
    | .ok t => .ok (t, true)

/-- `Octree::index(point, node)` (the recursive overload): null → null;
leaf → linear componentwise-equality scan of `pointList`; internal →
bound test, octant code, descend into the child when present, else null. -/
def index (p : Point3f) : Nat → Option OctreeNode → Option OctreeNode
  | _, none => none
  | fuel, some node =>
    if node.isLeaf then
      if node.pointList.any (fun q => Point3f.beq p q) then some node else none
    else if isPointInBound p node.origin node.size then
      match node.getChild (childIndexCalc node.origin node.size p) with
      | none => none
      | some c =>
        match fuel with
        | 0 => none
        | fuel' + 1 => index p fuel' (some c)
    else none

/-- `Octree::index(point)` (the public overload; the spec calls it
`locate`): whole-tree bound check, then the recursive descent from the
root.  Named `locate` because Lean cannot overload `index` by arity. -/
def Octree.locate (t : Octree) (p : Point3f) : Option OctreeNode :=
  if isPointInBound p t.origin t.size then index p (t.maxDepth + 1) t.rootNode
  else none

/-- The path (sequence of octant codes) from a start node down to a node:
the functional counterpart of a C++ node pointer into the tree. -/
def nodeAt : Option OctreeNode → List Nat → Option OctreeNode
  | r, [] => r
  | none, _ :: _ => none
  | some n, i :: rest => nodeAt (n.getChild i) rest

/-- Rewrites the node a path points at (used to model in-place mutation
through a C++ node pointer). -/
def modifyAt (g : OctreeNode → OctreeNode) :
    Option OctreeNode → List Nat → Option OctreeNode
  | none, _ => none
  | some n, [] => some (g n)
  | some n, i :: rest => some (n.setChild i (modifyAt g (n.getChild i) rest))

/-- The same descent as `index`, instrumented to return the path to the
found leaf instead of the node: this path plays the role of the returned
node pointer (and of the `parent` chain above it) in `deletePoint`. -/
def indexPath (p : Point3f) : Nat → Option OctreeNode → Option (List Nat)
  | _, none => none
  | fuel, some node =>
    if node.isLeaf then
      if node.pointList.any (fun q => Point3f.beq p q) then some [] else none
    else if isPointInBound p node.origin node.size then
      match node.getChild (childIndexCalc node.origin node.size p) with
      | none => none
      | some c =>
        match fuel with
        | 0 => none
        | fuel' + 1 =>
          match indexPath p fuel' (some c) with
          | none => none
          | some rest => some (childIndexCalc node.origin node.size p :: rest)
    else none

/-- The deletion loop of `Octree::deletePoint`:
`for (i = 0; i < pointList.size(); i++) if (pointList[i] == point)
pointList.erase(begin + i);` — the `for` increment runs after an erasing
iteration too, so `i` always advances.  Fuel `pointList.length + 1` is
ample since `i` grows by 1 per step. -/
def eraseMatchLoop (p : Point3f) : Nat → Nat → List Point3f → List Point3f
  | 0, _, l => l
  | fuel + 1, i, l =>
    if h : i < l.length then
      if Point3f.beq p (l.get ⟨i, h⟩) then eraseMatchLoop p fuel (i + 1) (l.eraseIdx i)
      else eraseMatchLoop p fuel (i + 1) l
    else l

/-- Undefined behaviour reachable inside `deletePointRecurse`:
`nullParentDeref` is the write `parent->children[...]` with `parent == NULL`
(the root's parent); `badChildIndex` is a `children[i]` access with `i`
outside `0..7` (e.g. `parentIndex == -1`). -/
inductive DelErr where
  | nullParentDeref
  | badChildIndex
deriving DecidableEq, Repr

/-- `Octree::deletePointRecurse(node)` as a walk over the path to the
current node (`none` plays the null pointer passed for the root's parent).
Leaf with a non-empty list: detach from the parent slot, free, recurse on
the parent.  Leaf with an empty list: return true.  Internal node with all
children null: `node = nullptr` writes only the caller's local, so the tree
is untouched, and the walk moves to the parent.  Internal node with a live
child: return true. -/
def deletePointRecurse :
    Nat → Option OctreeNode → Option (List Nat) → Except DelErr (Option OctreeNode × Bool)
  | _, root, none => .ok (root, false)
  | 0, root, some _ => .ok (root, false)
  | fuel + 1, root, some path =>
    match nodeAt root path with
    | none => .ok (root, false)
    | some node =>
      if node.isLeaf then
        if !node.pointList.isEmpty then
          match path with
          | [] => .error .nullParentDeref
          | _ :: _ =>
            if 0 ≤ node.parentIndex ∧ node.parentIndex < 8 then
              let root' := modifyAt
                (fun parent => parent.setChild node.parentIndex.toNat none)
                root path.dropLast
              deletePointRecurse fuel root' (some path.dropLast)
            else .error .badChildIndex
        else .ok (root, true)
      else
        if (List.range 8).all (fun i => (node.getChild i).isNone) then
          deletePointRecurse fuel root
            (match path with | [] => none | _ :: _ => some path.dropLast)
        else .ok (root, true)

/-- `Octree::deletePoint(point)`: locate via the recursive `index` from the
root, run the erase loop on the found leaf's `pointList`, then
`deletePointRecurse` upward from that leaf. -/
def Octree.deletePoint (t : Octree) (p : Point3f) : Except DelErr (Octree × Bool) :=
  match indexPath p (t.maxDepth + 1) t.rootNode with
  | none => .ok (t, false)
  | some path =>
    let root1 := modifyAt
      (fun n => n.setPointList (eraseMatchLoop p (n.pointList.length + 1) 0 n.pointList))
      t.rootNode path
    match deletePointRecurse (path.length + 2) root1 (some path) with
    | .error e => .error e
    | .ok (root2, b) => .ok ({ t with rootNode := root2 }, b)

/-- `Octree::traverseRecurseDFS(node, f)`, observed as the list of nodes on
which `f` is invoked, in invocation order: `f` is called on the node; when
it returns false that call returns (its subtree is skipped), but the
caller's loop over the remaining siblings continues. -/
def traverseRecurseDFS (f : OctreeNode → Bool) : Nat → Option OctreeNode → List OctreeNode
  | _, none => []
  | fuel, some node =>
    if f node then
      node ::
        (match fuel with
         | 0 => []
         | fuel' + 1 =>
           ((List.range 8).map (fun i => traverseRecurseDFS f fuel' (node.getChild i))).flatten)
    else [node]

/-- `Octree::traverseRecurseBFS(node, f)` (post-order in fact), observed as
the list of nodes on which `f` is invoked: all eight child subtrees are
recursed into first, then `f` is invoked on the node; the final
`if (!f(node)) return;` is the last statement, so `f`'s value affects
nothing. -/
def traverseRecurseBFS (f : OctreeNode → Bool) : Nat → Option OctreeNode → List OctreeNode
  | _, none => []
  | fuel, some node =>
    (match fuel with
     | 0 => []
     | fuel' + 1 =>
       ((List.range 8).map (fun i => traverseRecurseBFS f fuel' (node.getChild i))).flatten)
      ++ [node]

/-! Concrete fixtures and observation helpers used by the claim analyses.
All test trees are built by running the embedded construction and mutation
code itself; the first conjunct of each concrete theorem re-checks the
observable state of the fixture so that the fallback of an unwrapping
helper can never be mistaken for a built tree. -/

def fr0 : Frac := ⟨0, 1⟩

def origin0 : Point3f := ⟨fr0, fr0, fr0⟩

/-- Observable summary of a node: depth, parentIndex, leaf flag, points. -/
def obsNode (n : OctreeNode) : Nat × Int × Bool × List Point3f :=
  (n.depth, n.parentIndex, n.isLeaf, n.pointList)

def unwrapTree : Except OctErr Octree → Octree
  | .ok t => t
  | .error _ => ⟨none, fr0, 0, origin0⟩

def unwrapDel : Except DelErr (Octree × Bool) → Octree × Bool
  | .ok r => r
  | .error _ => (⟨none, fr0, 0, origin0⟩, false)

def delErrObs : Except DelErr (Octree × Bool) → Option DelErr
  | .ok _ => none
  | .error e => some e

def cvtErrObs : Except CvtErr (Octree × Bool) → Option CvtErr
  | .ok _ => none
  | .error e => some e

def pHalf : Point3f := ⟨⟨1,2⟩,⟨1,2⟩,⟨1,2⟩⟩

def pQ3 : Point3f := ⟨⟨3,4⟩,⟨3,4⟩,⟨3,4⟩⟩

def pOne : Point3f := ⟨⟨1,1⟩,⟨1,1⟩,⟨1,1⟩⟩

def pTwo : Point3f := ⟨⟨2,1⟩,⟨2,1⟩,⟨2,1⟩⟩

def pSeven : Point3f := ⟨⟨3,2⟩,⟨3,2⟩,⟨3,2⟩⟩

def pTenth : Point3f := ⟨⟨1,10⟩,⟨1,10⟩,⟨1,10⟩⟩

def pNineteen : Point3f := ⟨⟨19,10⟩,⟨19,10⟩,⟨19,10⟩⟩

def pNeg : Point3f := ⟨⟨-1,1⟩,⟨-1,1⟩,⟨-1,1⟩⟩

def pTen : Point3f := ⟨⟨10,1⟩,⟨10,1⟩,⟨10,1⟩⟩

def pEleven : Point3f := ⟨⟨11,1⟩,⟨11,1⟩,⟨11,1⟩⟩

/-- An empty tree over the cube with corner (0,0,0) and edge 2, maxDepth 1
(`Octree(1, 2.0, Point3f(0,0,0))`). -/
def treeBase2 : Octree := ⟨none, ⟨2,1⟩, 1, origin0⟩

/-- treeBase2 after inserting the single point (1/2,1/2,1/2). -/
def treeC1a : Octree := unwrapTree (insertList treeBase2 [pHalf])

/-- treeBase2 after inserting (1/2,1/2,1/2) and (3/4,3/4,3/4): both land in
the octant-0 leaf. -/
def treeC1b : Octree := unwrapTree (insertList treeBase2 [pHalf, pQ3])

/-- The result of deleting (1/2,1/2,1/2) from treeC1a. -/
def delC1a : Octree × Bool := unwrapDel (Octree.deletePoint treeC1a pHalf)

/-- The result of deleting (1/2,1/2,1/2) from treeC1b. -/
def delC1b : Octree × Bool := unwrapDel (Octree.deletePoint treeC1b pHalf)

/-- Extracts the tree built by `convertFromPointCloud` (fallback: a tree
no construction produces, recognizable by its null root). -/
def cvtTree : Except CvtErr (Octree × Bool) → Octree
  | .ok (t, _) => t
  | .error _ => ⟨none, fr0, 0, origin0⟩

/-- The tree built from the cloud {(10,10,10),(11,11,11)} with maxDepth 1. -/
def treeC2 : Octree := cvtTree (convertFromPointCloud 1 [pTen, pEleven])

/-- The tree over the cube with corner (0,0,0), edge 4 and maxDepth 0
(root is the leaf), holding (1,1,1) and (2,2,2). -/
def treeC4 : Octree := unwrapTree (insertList ⟨none, ⟨4,1⟩, 0, origin0⟩ [pOne, pTwo])

/-- treeBase2 after inserting (1/2,1/2,1/2) twice (adjacent duplicates in
the octant-0 leaf). -/
def treeC5 : Octree := unwrapTree (insertList treeBase2 [pHalf, pHalf])

/-- The result of deleting (1/2,1/2,1/2) from treeC5. -/
def delC5 : Octree × Bool := unwrapDel (Octree.deletePoint treeC5 pHalf)

/-- The spec §8 scenario tree: built by `convertFromPointCloud` with
maxDepth 1 from {(0.1,0.1,0.1), (1.9,1.9,1.9)} — origin (0,0,0), size 2,
leaves at octants 0 and 7. -/
def treeC6 : Octree := cvtTree (convertFromPointCloud 1 [pTenth, pNineteen])

/-- treeC6 after deleting (0.1,0.1,0.1). -/
def treeC6d1 : Octree := (unwrapDel (Octree.deletePoint treeC6 pTenth)).1

/-- treeC6d1 after deleting (1.9,1.9,1.9): all inserted points deleted. -/
def treeC6d2 : Octree := (unwrapDel (Octree.deletePoint treeC6d1 pNineteen)).1

/-- treeBase2 after inserting (1/2,1/2,1/2) and (3/2,3/2,3/2): leaves at
octants 0 and 7. -/
def treeC7 : Octree := unwrapTree (insertList treeBase2 [pHalf, pSeven])

/-- The traversal predicate of the C7 analysis: false exactly on leaves. -/
def fNotLeaf : OctreeNode → Bool := fun n => !n.isLeaf

/-- Lookup-result check for C9: a non-null leaf node whose `pointList`
holds an entry componentwise equal to `p`. -/
def foundLeafWith (p : Point3f) : Option OctreeNode → Bool
  | none => false
  | some n => n.isLeaf && n.pointList.any (fun q => Point3f.beq p q)

/-- Structural well-formedness to the given fuel depth: every reachable
node has exactly 8 child slots and carries the leaf flag only at depth
`maxDepth`.  Every tree the class itself builds satisfies this: fresh
nodes are created with 8 null children and the flag is only ever set on
arrival at `maxDepth`. -/
def nodeOk (maxDepth : Nat) : Nat → OctreeNode → Bool
  | 0, _ => true
  | fuel + 1, n =>
    (n.children.length == 8) && (!n.isLeaf || (n.depth == maxDepth))
      && n.children.all (fun c => match c with
          | none => true
          | some m => nodeOk maxDepth fuel m)

/-- Precondition of the containment theorem: the root slot is either empty
or holds a node recording the tree's own origin and size (true of every
root the class creates) that is well formed. -/
def rootOk (t : Octree) : Bool :=
  match t.rootNode with
  | none => true
  | some r => decide (r.origin = t.origin) && decide (r.size = t.size)
      && nodeOk t.maxDepth (t.maxDepth + 1) r

/-- Witness tree for C9: treeBase2 after inserting (1/2,1/2,1/2). -/
def treeC9w : Octree := unwrapTree (Octree.insertPoint treeBase2 pHalf)

/-- Witness tree for C10: built from the singleton cloud {(1,1,1)}. -/
def treeC10w : Octree := cvtTree (convertFromPointCloud 0 [pOne])

/-! Helper lemmas. -/

theorem Point3f.beq_refl (p : Point3f) : Point3f.beq p p = true := by
  simp [Point3f.beq, Frac.beq]

theorem childIndexCalc_lt (o : Point3f) (s : Frac) (p : Point3f) :
    childIndexCalc o s p < 8 := by
  unfold childIndexCalc xIndexCalc yIndexCalc zIndexCalc
  split <;> split <;> split <;> decide

theorem origin_setChild (n : OctreeNode) (i : Nat) (c : Option OctreeNode) :
    (n.setChild i c).origin = n.origin := by cases n; rfl

theorem size_setChild (n : OctreeNode) (i : Nat) (c : Option OctreeNode) :
    (n.setChild i c).size = n.size := by cases n; rfl

theorem isLeaf_setChild (n : OctreeNode) (i : Nat) (c : Option OctreeNode) :
    (n.setChild i c).isLeaf = n.isLeaf := by cases n; rfl

theorem getChild_setChild (n : OctreeNode) (i : Nat) (c : Option OctreeNode)
    (h : i < n.children.length) : (n.setChild i c).getChild i = c := by
  cases n with
  | mk d s o pi l pl cs =>
    simp only [OctreeNode.setChild, OctreeNode.getChild, OctreeNode.children] at h ⊢
    simp [List.getD, List.getElem?_set_eq_of_lt, h]

theorem mem_of_getChild (n : OctreeNode) (i : Nat) (c : OctreeNode)
    (h : n.getChild i = some c) : some c ∈ n.children := by
  cases n with
  | mk d s o pi l pl cs =>
    simp only [OctreeNode.getChild, OctreeNode.children, List.getD] at h ⊢
    cases hq : cs.get? i with
    | none => rw [hq] at h; simp at h
    | some v => rw [hq] at h; simp at h; subst h; exact List.get?_mem hq

theorem isLeaf_markLeafAdd (p : Point3f) (n : OctreeNode) :
    (n.markLeafAdd p).isLeaf = true := by cases n; rfl

theorem pointList_markLeafAdd (p : Point3f) (n : OctreeNode) :
    (n.markLeafAdd p).pointList = n.pointList ++ [p] := by cases n; rfl

theorem nodeOk_create (maxD : Nat) (fuel : Nat) (d : Nat) (s : Frac)
    (o : Point3f) (pi : Int) :
    nodeOk maxD fuel (OctreeNode.create d s o pi) = true := by
  cases fuel with
  | zero => rfl
  | succ k => rfl

/-- A successful insertion implies the bound test at the entered node held. -/
theorem insertPointRecurse_bound (maxD : Nat) (p : Point3f) (fuel : Nat)
    (node node' : OctreeNode) (h : insertPointRecurse maxD p fuel node = .ok node') :
    isPointInBound p node.origin node.size = true := by
  unfold insertPointRecurse at h
  split at h
  · exact absurd h (by simp)
  · rename_i hbound
    cases hb2 : isPointInBound p node.origin node.size
    · exact absurd (by simp [hb2]) hbound
    · rfl

/-- Fidelity of the path-instrumented lookup: `index` returns exactly the
node that `indexPath`'s path leads to, so `deletePoint`'s path-based
mutation acts on the very node the source's `index(point, rootNode)` call
returns. -/
theorem index_eq_indexPath_nodeAt (p : Point3f) :
    ∀ fuel (r : Option OctreeNode),
      index p fuel r = (indexPath p fuel r).bind (nodeAt r) := by
  intro fuel
  induction fuel with
  | zero =>
    intro r
    cases r with
    | none => rfl
    | some node =>
      rw [index.eq_2, indexPath.eq_2]
      by_cases hl : node.isLeaf
      · by_cases ha : node.pointList.any (fun q => Point3f.beq p q)
        · simp [hl, ha, nodeAt]
        · simp [hl, ha]
      · by_cases hb : isPointInBound p node.origin node.size
        · cases hgc : node.getChild (childIndexCalc node.origin node.size p) with
          | none => simp [hl, hb, hgc]
          | some c => simp [hl, hb, hgc]
        · simp [hl, hb]
  | succ k ih =>
    intro r
    cases r with
    | none => rfl
    | some node =>
      rw [index.eq_2, indexPath.eq_2]
      by_cases hl : node.isLeaf
      · by_cases ha : node.pointList.any (fun q => Point3f.beq p q)
        · simp [hl, ha, nodeAt]
        · simp [hl, ha]
      · by_cases hb : isPointInBound p node.origin node.size
        · cases hgc : node.getChild (childIndexCalc node.origin node.size p) with
          | none => simp [hl, hb, hgc]
          | some c =>
            cases hip : indexPath p k (some c) with
            | none => simp [hl, hb, hgc, ih, hip, nodeAt]
            | some rest => simp [hl, hb, hgc, ih, hip, nodeAt]
        · simp [hl, hb]

/-- Containment after insertion, at the node level, by induction on fuel:
a successful `insertPointRecurse` leaves the tree such that the recursive
`index` run with the same fuel finds a leaf holding the point. -/
theorem insertPointRecurse_finds (maxD : Nat) (p : Point3f) :
    ∀ fuel (node node' : OctreeNode),
      nodeOk maxD fuel node = true →
      insertPointRecurse maxD p fuel node = .ok node' →
      foundLeafWith p (index p fuel (some node')) = true := by
  intro fuel
  induction fuel with
  | zero =>
    intro node node' hok h
    unfold insertPointRecurse at h
    split at h
    · exact absurd h (by simp)
    · split at h
      · simp only [Except.ok.injEq] at h
        subst h
        simp [index, foundLeafWith, isLeaf_markLeafAdd, pointList_markLeafAdd,
          List.any_append, Point3f.beq_refl]
      · exact absurd h (by simp)
  | succ k ih =>
    intro node node' hok h
    unfold insertPointRecurse at h
    split at h
    · exact absurd h (by simp)
    · rename_i hbound
      split at h
      · simp only [Except.ok.injEq] at h
        subst h
        simp [index, foundLeafWith, isLeaf_markLeafAdd, pointList_markLeafAdd,
          List.any_append, Point3f.beq_refl]
      · rename_i hdep
        simp only at h
        cases hrec : insertPointRecurse maxD p k
            (match node.getChild (childIndexCalc node.origin node.size p) with
             | some c => c
             | none =>
               OctreeNode.create (node.depth + 1) (Frac.half node.size)
                 (childOriginCalc node.origin node.size p)
                 (childIndexCalc node.origin node.size p)) with
        | error e => rw [hrec] at h; exact absurd h (by simp)
        | ok child' =>
          rw [hrec] at h
          simp only [Except.ok.injEq] at h
          subst h
          have hb : isPointInBound p node.origin node.size = true := by
            cases hb2 : isPointInBound p node.origin node.size
            · exact absurd (by simp [hb2]) hbound
            · rfl
          unfold nodeOk at hok
          simp only [Bool.and_eq_true, beq_iff_eq, Bool.or_eq_true,
            Bool.not_eq_true', List.all_eq_true] at hok
          obtain ⟨⟨hlen, hleaf⟩, hall⟩ := hok
          have hleaf' : node.isLeaf = false := hleaf.resolve_right hdep
          have hci : childIndexCalc node.origin node.size p < node.children.length := by
            rw [hlen]; exact childIndexCalc_lt _ _ _
          have hgc : (node.setChild (childIndexCalc node.origin node.size p)
              (some child')).getChild (childIndexCalc node.origin node.size p)
              = some child' := getChild_setChild _ _ _ hci
          have h1 : index p (k + 1)
              (some (node.setChild (childIndexCalc node.origin node.size p) (some child')))
              = index p k (some child') := by
            rw [index.eq_2]
            simp [isLeaf_setChild, hleaf', origin_setChild, size_setChild, hb, hgc]
          rw [h1]
          cases hgcc : node.getChild (childIndexCalc node.origin node.size p) with
          | some c =>
            rw [hgcc] at hrec
            simp only at hrec
            have hokc := hall (some c) (mem_of_getChild _ _ _ hgcc)
            simp only at hokc
            exact ih c child' hokc hrec
          | none =>
            rw [hgcc] at hrec
            simp only at hrec
            exact ih _ child' (nodeOk_create _ _ _ _ _ _) hrec

/-! The claim theorems. -/

set_option maxHeartbeats 1600000 in
/-- C1: refuted by execution, in both directions.  (a) In the maxDepth-1
tree holding only (1/2,1/2,1/2), deleting that point leaves the emptied
leaf attached under the root with an empty pointList — I2 is violated and
the leaf is neither detached nor freed.  (b) With (1/2,1/2,1/2) and
(3/4,3/4,3/4) sharing the octant-0 leaf, deleting only the first frees the
leaf that still holds the live point (3/4,3/4,3/4) and leaves the root as
an internal node with zero children — I1 is violated and a node holding a
live point was freed.  Both behaviours stem from `deletePointRecurse`
freeing a leaf exactly when its pointList is NOT empty (inverted test). -/
theorem c1_deletePoint_breaks_invariants :
    ((nodeAt treeC1a.rootNode [0]).map obsNode = some (1, 0, true, [pHalf])
      ∧ delC1a.2 = true
      ∧ (nodeAt delC1a.1.rootNode [0]).map obsNode = some (1, 0, true, []))
    ∧ ((nodeAt treeC1b.rootNode [0]).map obsNode = some (1, 0, true, [pHalf, pQ3])
      ∧ delC1b.1.rootNode.isSome = true
      ∧ (nodeAt delC1b.1.rootNode [0]).isNone = true
      ∧ (nodeAt delC1b.1.rootNode []).map
          (fun n => (n.isLeaf, (List.range 8).all (fun i => (n.getChild i).isNone)))
        = some (false, true)) := by
  refine ⟨⟨?_, ?_, ?_⟩, ?_, ?_, ?_, ?_⟩ <;> decide

/-- C2: refuted by execution.  The code sets `halfSize` to the largest
coordinate of the cloud's center, not to the largest half-extent of the
bounding box.  For the cloud {(10,10,10),(11,11,11)} the box midpoint is
(10.5,10.5,10.5) and the maximum half-extent is 1/2, so the claim demands
size 1 and origin (10,10,10); the code produces size 21 and origin (0,0,0).
For the singleton cloud {(-1,-1,-1)} the code derives origin (0,0,0) and
size −2, and inserting the very point the cube was derived from fails with
the out-of-bounds error even though (−1,−1,−1) lies on no derived boundary
(the cube's faces sit at 0 and −2 on each axis), refuting the containment
guarantee. -/
theorem c2_bounding_cube_not_half_extent :
    (treeC2.rootNode.isSome = true
      ∧ Frac.beq treeC2.size ⟨21, 1⟩ = true
      ∧ Point3f.beq treeC2.origin origin0 = true
      ∧ Frac.beq treeC2.size ⟨1, 1⟩ = false
      ∧ Point3f.beq treeC2.origin pTen = false)
    ∧ ((findCenterInPointCloud [pNeg]).map (fun c => Point3f.beq c pNeg) = some true
      ∧ cvtErrObs (convertFromPointCloud 1 [pNeg]) = some (.insertErr .outOfBounds)
      ∧ (Frac.beq pNeg.x fr0 || Frac.beq pNeg.x (Frac.add fr0 (Frac.double (Frac.ofInt (-1)))))
        = false) := by decide

/-- C3: refuted by execution.  `convertFromPointCloud` performs no
emptiness check: on an empty cloud, `findCenterInPointCloud` reads
`pointCloud[0]` out of bounds (undefined behaviour, modelled as
`CvtErr.emptyCloudUB`).  No `InvalidArgument` condition exists anywhere in
the code — the only raised error is the out-of-bounds `CV_Error` inside
`insertPointRecurse` — so the failure the claim promises is never
reported. -/
theorem c3_empty_cloud_is_ub_not_invalid_argument :
    cvtErrObs (convertFromPointCloud 6 []) = some .emptyCloudUB
      ∧ findCenterInPointCloud [] = none := by decide

/-- C4: refuted by execution.  In a maxDepth-0 tree holding (1,1,1) and
(2,2,2), `deletePoint (1,1,1)` erases the matching entry, finds the root
leaf's pointList still non-empty, and — because of the inverted emptiness
test — tries to detach the root from its parent: it dereferences the null
`parent` pointer (writing `parent->children[-1]`).  The call crashes, so
the promised subsequent not-found lookup is never reached. -/
theorem c4_delete_then_lookup_crashes :
    (nodeAt treeC4.rootNode []).map obsNode = some (0, -1, true, [pOne, pTwo])
      ∧ delErrObs (Octree.deletePoint treeC4 pOne) = some .nullParentDeref := by decide

set_option maxHeartbeats 1600000 in
/-- C5: refuted by execution.  The deletion loop erases `pointList[i]` and
then still increments `i`, so the duplicate that shifts into position `i`
is skipped: on the list [(1/2,1/2,1/2), (1/2,1/2,1/2)] one equal entry
survives the loop.  (Non-adjacent duplicates are all removed because the
skipped shifted element is a non-match.)  Running the full `deletePoint`
on the tree holding the two adjacent duplicates confirms the leaf's list
was still non-empty after the loop: the inverted-emptiness branch fires
and frees the leaf, returning false. -/
theorem c5_adjacent_duplicate_survives_erase_loop :
    eraseMatchLoop pHalf 3 0 [pHalf, pHalf] = [pHalf]
      ∧ eraseMatchLoop pHalf 4 0 [pHalf, pQ3, pHalf] = [pQ3]
      ∧ ((nodeAt treeC5.rootNode [0]).map obsNode = some (1, 0, true, [pHalf, pHalf])
        ∧ delC5.2 = false ∧ (nodeAt delC5.1.rootNode [0]).isNone = true) := by
  refine ⟨?_, ?_, ?_, ?_, ?_⟩ <;> decide

set_option maxHeartbeats 1600000 in
/-- C6: refuted by execution.  Building the spec's own §8 scenario (two
distinct points, maxDepth 1) and deleting both points leaves the root
non-null: both emptied leaves stay attached (the inverted emptiness test
returns true without detaching them), and nothing in the deletion path
ever writes the member `rootNode` — `deletePoint` hands
`deletePointRecurse` a local copy of the pointer — so the root can never
become null. -/
theorem c6_full_drain_leaves_root_non_null :
    ((nodeAt treeC6.rootNode [0]).map obsNode = some (1, 0, true, [pTenth])
      ∧ (nodeAt treeC6.rootNode [7]).map obsNode = some (1, 7, true, [pNineteen]))
    ∧ (unwrapDel (Octree.deletePoint treeC6 pTenth)).2 = true
    ∧ (unwrapDel (Octree.deletePoint treeC6d1 pNineteen)).2 = true
    ∧ treeC6d2.rootNode.isSome = true
    ∧ (nodeAt treeC6d2.rootNode [0]).map obsNode = some (1, 0, true, [])
    ∧ (nodeAt treeC6d2.rootNode [7]).map obsNode = some (1, 7, true, []) := by
  refine ⟨⟨?_, ?_⟩, ?_, ?_, ?_, ?_, ?_⟩ <;> decide

/-- C7: refuted by execution.  With the predicate "false on leaves" on the
tree with leaves at octants 0 and 7: the depth-first traversal invokes the
predicate on the root (true), then on leaf 0 (false) — and still visits
leaf 7, the sibling, because the early return is not propagated through
the caller's child loop.  The so-called breadth-first traversal (post-order
in fact) invokes the predicate on leaf 0 (false) and still visits leaf 7
and the root afterwards; its predicate test is the last statement of each
call, so a false return stops nothing at all. -/
theorem c7_traversal_false_does_not_stop :
    ((nodeAt treeC7.rootNode [0]).map obsNode = some (1, 0, true, [pHalf])
      ∧ (nodeAt treeC7.rootNode [7]).map obsNode = some (1, 7, true, [pSeven]))
    ∧ (traverseRecurseDFS fNotLeaf 2 treeC7.rootNode).map
        (fun n => (n.depth, n.parentIndex, fNotLeaf n))
      = [(0, -1, true), (1, 0, false), (1, 7, false)]
    ∧ (traverseRecurseBFS fNotLeaf 2 treeC7.rootNode).map
        (fun n => (n.depth, n.parentIndex, fNotLeaf n))
      = [(1, 0, false), (1, 7, false), (0, -1, true)] := by decide

/-- C8: confirmed.  Octant selection is the single deterministic function
`childIndexCalc`, used by both `insertPointRecurse` and `index` (their
octant computations are this shared definition): it equals
xBit + 2*yBit + 4*zBit where each bit is 0 exactly when the point's
coordinate is below origin.axis + size/2, and for a node with origin
(0,0,0) and size 2 the point (3/2, 1/2, 3/2) resolves to child index 5. -/
theorem c8_octant_code_deterministic (o : Point3f) (s : Frac) (p : Point3f) :
    (childIndexCalc o s p
      = (if Frac.lt p.x (Frac.add o.x (Frac.half s)) then 0 else 1)
        + 2 * (if Frac.lt p.y (Frac.add o.y (Frac.half s)) then 0 else 1)
        + 4 * (if Frac.lt p.z (Frac.add o.z (Frac.half s)) then 0 else 1))
    ∧ childIndexCalc origin0 ⟨2,1⟩ ⟨⟨3,2⟩,⟨1,2⟩,⟨3,2⟩⟩ = 5 := by
  constructor
  · unfold childIndexCalc xIndexCalc yIndexCalc zIndexCalc
    ring
  · decide

/-- C9: confirmed.  For every point successfully inserted (no OutOfBounds
error), the public lookup on the resulting tree returns a non-null leaf
node whose pointList contains a componentwise-equal entry.  The
hypothesis `rootOk` states that the root slot, if occupied, records the
tree's own origin and size and is structurally well formed — true of
every tree the class itself builds. -/
theorem c9_insert_then_locate_finds (t : Octree) (p : Point3f) (t' : Octree)
    (hr : rootOk t = true) (h : t.insertPoint p = .ok t') :
    foundLeafWith p (t'.locate p) = true := by
  unfold Octree.insertPoint at h
  cases hroot : t.rootNode with
  | none =>
    rw [hroot] at h
    simp only at h
    cases hrec : insertPointRecurse t.maxDepth p (t.maxDepth + 1)
        (OctreeNode.create 0 t.size t.origin (-1)) with
    | error e => rw [hrec] at h; exact absurd h (by simp)
    | ok r' =>
      rw [hrec] at h
      simp only [Except.ok.injEq] at h
      subst h
      have hb := insertPointRecurse_bound _ _ _ _ _ hrec
      simp only [OctreeNode.create] at hb
      unfold Octree.locate
      simp only [OctreeNode.origin, OctreeNode.size] at hb
      simp only [hb, if_true]
      exact insertPointRecurse_finds _ _ _ _ _ (nodeOk_create _ _ _ _ _ _) hrec
  | some r =>
    rw [hroot] at h
    simp only at h
    cases hrec : insertPointRecurse t.maxDepth p (t.maxDepth + 1) r with
    | error e => rw [hrec] at h; exact absurd h (by simp)
    | ok r' =>
      rw [hrec] at h
      simp only [Except.ok.injEq] at h
      subst h
      unfold rootOk at hr
      rw [hroot] at hr
      simp only [Bool.and_eq_true, decide_eq_true_eq] at hr
      obtain ⟨⟨ho, hs⟩, hok⟩ := hr
      have hb := insertPointRecurse_bound _ _ _ _ _ hrec
      rw [ho, hs] at hb
      unfold Octree.locate
      simp only [hb, if_true]
      exact insertPointRecurse_finds _ _ _ _ _ hok hrec

/-- Witness for C9 at a concrete input: inserting (1/2,1/2,1/2) into the
empty treeBase2 and looking it up finds it. -/
theorem c9_witness : foundLeafWith pHalf (Octree.locate treeC9w pHalf) = true :=
  c9_insert_then_locate_finds treeBase2 pHalf treeC9w (by decide) (by rfl)

/-- C10: confirmed.  Whenever `convertFromPointCloud` terminates normally
(neither the undefined empty-cloud access nor an insertion error occurs),
its boolean result is `true` — the function's only return statement is
`return true`, so the result never signals a failed creation. -/
theorem c10_convert_returns_true (maxDepth : Nat) (pc : List Point3f)
    (t : Octree) (b : Bool)
    (h : convertFromPointCloud maxDepth pc = .ok (t, b)) : b = true := by
  unfold convertFromPointCloud at h
  split at h
  · exact absurd h (by simp)
  · dsimp only at h
    split at h
    · exact absurd h (by simp)
    · simp only [Except.ok.injEq, Prod.mk.injEq] at h
      exact h.2.symm

/-- Witness for C10 at a concrete input: building from the singleton cloud
{(1,1,1)} terminates normally with result true. -/
theorem c10_witness : (true : Bool) = true :=
  c10_convert_returns_true 0 [pOne] treeC10w true (by rfl)
